import Mathlib

/-!
Verification of the battle orchestration service (battle.py).

The development shallowly embeds the core of the service:
the broadcast helper `broadcast_event` and the envelope it builds,
the realtime-token helper `get_realtime_jwt`,
the start endpoint `start_battle` (the StartCoordinator decision table),
and the phase loop `run_battle_sequence` (the PhaseOrchestrator).

Effects are made explicit: every remote call (store fetch, store write,
outbound HTTP post) is an input of the embedded function, given as an
`Except`/outcome value so that a raised exception at any call site can be
injected; the in-process registry (the Python set `active_battles`) is a
`Finset String` threaded through the functions; broadcasts are recorded as
an ordered event list.
-/

set_option linter.unusedVariables false

/-- JSON-like values modelling the Python dict/list/str/int payloads that the
service builds and serializes. -/
inductive JVal where
  | str (s : String)
  | num (n : Int)
  | obj (fields : List (String × JVal))
  | arr (elems : List JVal)

mutual

/-- Serialization of a JSON value with the separators the default Python
json.dumps uses when the broadcast body is posted (", " between items,
": " after keys). -/
def JVal.render : JVal → String
  | JVal.str s => "\"" ++ s ++ "\""
  | JVal.num n => toString n
  | JVal.obj fs => "\x7b" ++ JVal.renderObj fs ++ "\x7d"
  | JVal.arr xs => "[" ++ JVal.renderArr xs ++ "]"

/-- Serialization of the key/value pairs of a JSON object. -/
def JVal.renderObj : List (String × JVal) → String
  | [] => ""
  | [(k, v)] => "\"" ++ k ++ "\": " ++ JVal.render v
  | (k, v) :: p :: rest =>
    "\"" ++ k ++ "\": " ++ JVal.render v ++ ", " ++ JVal.renderObj (p :: rest)

/-- Serialization of the elements of a JSON array. -/
def JVal.renderArr : List JVal → String
  | [] => ""
  | [v] => JVal.render v
  | v :: w :: rest => JVal.render v ++ ", " ++ JVal.renderArr (w :: rest)

end

/-- Wire envelope built by broadcast_event (battle.py lines 92-103): a
"messages" array holding one message whose topic is "battle:" followed by the
battle id, whose event field is the literal "broadcast", and whose payload
wraps the actual event type under "type" and the event data under "data". -/
def broadcast_body (battle_id : String) (event : String) (payload : JVal) : JVal :=
  JVal.obj [("messages", JVal.arr [JVal.obj
    [("topic", JVal.str ("battle:" ++ battle_id)),
     ("event", JVal.str "broadcast"),
     ("payload", JVal.obj [("type", JVal.str event), ("data", payload)])]])]

/-- Success predicate of the HTTP client response object (requests'
Response.ok): true exactly when the status code is below 400. -/
def res_ok (status : Nat) : Bool := status < 400

/-- Outcome of the outbound POST performed by broadcast_event: either a
response carrying a status code, or a raised exception (connection error,
timeout, and so on). -/
inductive TransportOutcome where
  | response (status : Nat)
  | exn

/-- Result of broadcast_event (battle.py lines 88-142). The whole body sits
in a try/except returning False, so a raised exception yields false; when a
response arrives the function returns res.ok regardless of the logging branch
that compares the status against 200/202. -/
def broadcast_event (t : TransportOutcome) : Bool :=
  match t with
  | TransportOutcome.response st => res_ok st
  | TransportOutcome.exn => false

/-- Result of the token helper get_realtime_jwt (battle.py lines 50-83):
either an HS256 token signed with the configured secret (carrying the
project ref recovered from the service key), or the fallback the except
branch returns, namely the raw service key itself. -/
inductive TokenResult where
  | signed (secret : String) (project_ref : Option String)
  | fallback (key : Option String)

/-- Embedding of get_realtime_jwt (battle.py lines 50-83). Inputs: a decoder
for the unverified service-key claims (jwt.decode with signature verification
off, which raises on a malformed key), the optional service key and the
optional signing secret from the environment. Decoding a missing key raises,
and signing with a missing secret raises; every raise is caught by the
enclosing except branch, which returns the service key unchanged. -/
def get_realtime_jwt (decodeRef : String → Except Unit (Option String))
    (service_key : Option String) (jwt_secret : Option String) : TokenResult :=
  match service_key with
  | none => TokenResult.fallback none
  | some k =>
    match decodeRef k with
    | Except.error _ => TokenResult.fallback (some k)
    | Except.ok ref =>
      match jwt_secret with
      | none => TokenResult.fallback (some k)
      | some s => TokenResult.signed s ref

/-- C5: broadcast_event never raises (it is a total Boolean function of the
transport outcome); it returns true exactly when a response was received
whose status the client's success predicate res_ok accepts, and it returns
false on a raised transport error or timeout (the exn outcome evaluates to
false). -/
theorem broadcast_event_total_and_ok :
    (∀ t : TransportOutcome,
      broadcast_event t = true ↔
        ∃ st, t = TransportOutcome.response st ∧ res_ok st = true) ∧
    broadcast_event TransportOutcome.exn = false := by
  refine ⟨fun t => ?_, rfl⟩
  cases t with
  | response st =>
    constructor
    · intro h
      exact ⟨st, rfl, h⟩
    · rintro ⟨st2, heq, hok⟩
      cases heq
      exact hok
  | exn =>
    constructor
    · intro h
      cases h
    · rintro ⟨st2, heq, hok⟩
      cases heq

/-- C8: the envelope built for Publish("B1", "new_question", with payload
the object holding "a" mapped to 1) is literally the messages array with
topic "battle:B1", event "broadcast", payload.type "new_question" and
payload.data the given object, and it serializes to the literal JSON
envelope text. -/
theorem broadcast_body_envelope_B1 :
    broadcast_body "B1" "new_question" (JVal.obj [("a", JVal.num 1)]) =
      JVal.obj [("messages", JVal.arr [JVal.obj
        [("topic", JVal.str "battle:B1"),
         ("event", JVal.str "broadcast"),
         ("payload", JVal.obj [("type", JVal.str "new_question"),
                               ("data", JVal.obj [("a", JVal.num 1)])])]])] ∧
    JVal.render (broadcast_body "B1" "new_question" (JVal.obj [("a", JVal.num 1)])) =
      "\x7b\"messages\": [\x7b\"topic\": \"battle:B1\", \"event\": \"broadcast\", \"payload\": \x7b\"type\": \"new_question\", \"data\": \x7b\"a\": 1\x7d\x7d\x7d]\x7d" :=
  ⟨rfl, by decide⟩

/-- C6 counterexample: with the service key present but the signing secret
absent from the configuration, token issuance does not fail at all: the
signing error is caught and get_realtime_jwt returns the long-lived service
key itself as the token, so no ConfigurationError exists and nothing is fatal
at process start. -/
theorem missing_secret_token_fallback_cex :
    get_realtime_jwt (fun _ => Except.ok (some "ref")) (some "SK") none =
      TokenResult.fallback (some "SK") := rfl

/-- C6 amended: when the signing secret is absent, get_realtime_jwt never
fails and never raises a configuration error: for every decoder behaviour and
every present service key it falls back to returning the service key itself
as the token (and a missing service key merely yields a fallback of none; the
startup check in battle.py lines 33-42 only logs and does not stop the
service). -/
theorem missing_secret_always_fallback
    (decodeRef : String → Except Unit (Option String)) (k : String) :
    get_realtime_jwt decodeRef (some k) none = TokenResult.fallback (some k) := by
  cases h : decodeRef k with
  | error e => simp [get_realtime_jwt, h]
  | ok ref => simp [get_realtime_jwt, h]

/-- Lowercasing as Python's str.lower applies to the ASCII status strings:
each character is lowercased independently. -/
def py_lower (s : String) : String := String.mk (s.data.map Char.toLower)

/-- Truthiness-and-value test the start endpoint applies to the fetched
status string (battle.py lines 214, 226, 240): the Python guard
"current_status and current_status.lower() == v" is false for a missing or
empty status and otherwise compares the lowercased status against v. -/
def status_truthy_is (cs : Option String) (v : String) : Bool :=
  match cs with
  | none => false
  | some s => (s != "") && (py_lower s == v)

/-- Remote-call inputs consumed while handling /battle/start (battle.py
lines 188-249): the participants fetch, the single-row status fetch (which
raises when no row matches), and the status update write; an Except.error
value models the call raising. -/
structure StartInputs where
  participants : Except Unit (List String)
  status : Except Unit (Option String)
  update_status : Except Unit Unit

/-- Observable outcome of one start_battle call: the HTTP response (a raised
HTTPException status code on the error side, or the structured
success/message body), the number of store writes that set the battle row to
Active, the registry after the call, the number of orchestrator tasks
spawned, and the broadcast event types emitted from the start path itself. -/
structure StartOutcome where
  response : Except Nat (Bool × String)
  status_writes : Nat
  registry : Finset String
  spawned : Nat
  events : List String

/-- Embedding of the start endpoint start_battle (battle.py lines 184-271).
The four cases of the decision logic are translated in source order: resume
when the status is truthy-"active" and the id is registered; zombie repair
when truthy-"active" and unregistered (register, spawn, broadcast
battle_resume); rejection when truthy-"completed"; otherwise the fresh-start
path (write Active, register, broadcast battle_start_pending, sleep,
broadcast battle_start, spawn). Any raise inside the handler is caught by
the trailing except and re-raised as HTTPException(500). -/
def start_battle (inp : StartInputs) (active_battles : Finset String)
    (battle_id : String) : StartOutcome :=
  match inp.participants with
  | Except.error _ => ⟨Except.error 500, 0, active_battles, 0, []⟩
  | Except.ok _ =>
    match inp.status with
    | Except.error _ => ⟨Except.error 500, 0, active_battles, 0, []⟩
    | Except.ok cs =>
      if status_truthy_is cs "active" && decide (battle_id ∈ active_battles) then
        ⟨Except.ok (true, "Joined ongoing battle successfully"), 0,
          active_battles, 0, ["battle_resume"]⟩
      else if status_truthy_is cs "active" && decide (battle_id ∉ active_battles) then
        ⟨Except.ok (true, "Battle resumed successfully"), 0,
          insert battle_id active_battles, 1, ["battle_resume"]⟩
      else if status_truthy_is cs "completed" then
        ⟨Except.ok (false, "Battle already finished"), 0, active_battles, 0, []⟩
      else
        match inp.update_status with
        | Except.error _ => ⟨Except.error 500, 0, active_battles, 0, []⟩
        | Except.ok _ =>
          ⟨Except.ok (true, "Battle " ++ battle_id ++ " will start after 5 s buffer"), 1,
            insert battle_id active_battles, 1,
            ["battle_start_pending", "battle_start"]⟩

/-- C4: a start call that observes a persisted status whose lowercase form is
"completed" performs no store write, leaves the registry untouched, spawns
nothing, broadcasts nothing, and returns the structured rejection with the
"Battle already finished" message, whatever the participants data, the
pending update behaviour, the registry and the battle id. -/
theorem completed_start_rejected (ps : List String) (u : Except Unit Unit)
    (cs : String) (reg : Finset String) (battle_id : String)
    (hne : cs ≠ "") (hlow : py_lower cs = "completed") :
    start_battle ⟨Except.ok ps, Except.ok (some cs), u⟩ reg battle_id =
      ⟨Except.ok (false, "Battle already finished"), 0, reg, 0, []⟩ := by
  have hact : status_truthy_is (some cs) "active" = false := by
    simp [status_truthy_is, hlow, hne]
  have hcomp : status_truthy_is (some cs) "completed" = true := by
    simp [status_truthy_is, hlow, hne]
  simp [start_battle, hact, hcomp]

/-- C4 witness: the rejection theorem evaluated at the literal status
"Completed" with a one-element registry. -/
theorem completed_start_rejected_witness :
    start_battle ⟨Except.ok [], Except.ok (some "Completed"), Except.ok ()⟩
        {"X"} "B1" =
      ⟨Except.ok (false, "Battle already finished"), 0, {"X"}, 0, []⟩ :=
  completed_start_rejected [] (Except.ok ()) "Completed" {"X"} "B1"
    (by decide) (by decide)

/-- C3 counterexample: a start call that observes status Pending while the
battle id is already in the registry is not handled with resume semantics:
at the concrete input it writes the Active status once, spawns a new
orchestrator task, and broadcasts the fresh-start events
battle_start_pending and battle_start. -/
theorem pending_registered_fresh_start_cex :
    (start_battle ⟨Except.ok [], Except.ok (some "Pending"), Except.ok ()⟩
        {"B1"} "B1").status_writes = 1 ∧
    (start_battle ⟨Except.ok [], Except.ok (some "Pending"), Except.ok ()⟩
        {"B1"} "B1").spawned = 1 ∧
    (start_battle ⟨Except.ok [], Except.ok (some "Pending"), Except.ok ()⟩
        {"B1"} "B1").events = ["battle_start_pending", "battle_start"] := by
  refine ⟨?_, ?_, ?_⟩ <;> decide

/-- C3 amended: a start call that observes status Pending with the battle id
already registered takes the fresh-start path, not resume semantics: it
writes Active to the store once, spawns one new orchestrator task, broadcasts
battle_start_pending then battle_start, and leaves the registry equal to the
old one only because inserting an already-present member changes nothing. -/
theorem pending_registered_fresh_start (ps : List String) (reg : Finset String)
    (battle_id : String) (hmem : battle_id ∈ reg) :
    start_battle ⟨Except.ok ps, Except.ok (some "Pending"), Except.ok ()⟩
        reg battle_id =
      ⟨Except.ok (true, "Battle " ++ battle_id ++ " will start after 5 s buffer"),
        1, reg, 1, ["battle_start_pending", "battle_start"]⟩ := by
  have hact : status_truthy_is (some "Pending") "active" = false := by decide
  have hcomp : status_truthy_is (some "Pending") "completed" = false := by decide
  simp [start_battle, hact, hcomp, Finset.insert_eq_self.mpr hmem]

/-- C3 amended witness: the fresh-start-on-Pending theorem evaluated at the
registry already holding the battle id. -/
theorem pending_registered_fresh_start_witness :
    start_battle ⟨Except.ok [], Except.ok (some "Pending"), Except.ok ()⟩
        {"B1"} "B1" =
      ⟨Except.ok (true, "Battle B1 will start after 5 s buffer"),
        1, {"B1"}, 1, ["battle_start_pending", "battle_start"]⟩ :=
  pending_registered_fresh_start [] {"B1"} "B1" (by decide)

/-- C7 counterexample: when the participants fetch raises, start_battle does
not return a structured accepted/message body: the handler's except branch
re-raises the failure as an HTTPException with status 500, which the HTTP
caller receives as an error response. -/
theorem start_store_failure_http_500_cex :
    (start_battle ⟨Except.error (), Except.ok none, Except.ok ()⟩ ∅ "B1").response =
      Except.error 500 := rfl

/-- C7 amended: a store call failure while handling start — the participants
fetch, the status fetch, or the status-update write that the fresh-start
path performs when the fetched status is neither truthy-active nor
truthy-completed — is caught inside the handler and converted into an
HTTPException carrying status 500, so the HTTP caller receives a 500 error
response instead of a structured accepted/message body; no registry change,
no counted store write and no spawn happen on that path (broadcast failures
never raise, so they cannot reach this branch at all). -/
theorem start_store_failure_http_500 (inp : StartInputs) (reg : Finset String)
    (battle_id : String)
    (hfail : inp.participants = Except.error () ∨ inp.status = Except.error () ∨
      (∃ cs, inp.status = Except.ok cs ∧
        status_truthy_is cs "active" = false ∧
        status_truthy_is cs "completed" = false ∧
        inp.update_status = Except.error ())) :
    start_battle inp reg battle_id = ⟨Except.error 500, 0, reg, 0, []⟩ := by
  obtain ⟨p, s, u⟩ := inp
  rcases hfail with h | h | ⟨cs, hs, hA, hC, hu⟩
  · cases h
    rfl
  · cases h
    cases p with
    | error e => rfl
    | ok v => rfl
  · cases hs
    cases hu
    cases p with
    | error e => rfl
    | ok v => simp [start_battle, hA, hC]

/-- C7 amended witness: the HTTP 500 conversion theorem evaluated at a
failing status-update write on the fresh-start path (status Pending, update
raises). -/
theorem start_store_failure_http_500_witness :
    start_battle ⟨Except.ok [], Except.ok (some "Pending"), Except.error ()⟩
        ∅ "B1" =
      ⟨Except.error 500, 0, ∅, 0, []⟩ :=
  start_store_failure_http_500
    ⟨Except.ok [], Except.ok (some "Pending"), Except.error ()⟩ ∅ "B1"
    (Or.inr (Or.inr ⟨some "Pending", rfl, by decide, by decide, rfl⟩))

/-- Question row as returned by the store procedures get_first_mcq and
get_next_mcq: an id, the sequence position react_order, and the total count
of questions in the battle. -/
structure Mcq where
  mcq_id : String
  react_order : Nat
  total_mcqs : Nat

/-- Broadcast events emitted by the phase loop, in emission order; the stats
and leaderboard events carry the flattened payload (the first row of the
fetched list, or an empty object). -/
inductive BEvent where
  | new_question (m : Mcq)
  | show_stats (payload : JVal)
  | update_leaderboard (payload : JVal)
  | battle_end

/-- Predicate selecting new_question events. -/
def isNewQuestion : BEvent → Bool
  | BEvent.new_question _ => true
  | _ => false

/-- Predicate selecting show_stats events. -/
def isShowStats : BEvent → Bool
  | BEvent.show_stats _ => true
  | _ => false

/-- Predicate selecting update_leaderboard events. -/
def isUpdateLeaderboard : BEvent → Bool
  | BEvent.update_leaderboard _ => true
  | _ => false

/-- Predicate selecting battle_end events. -/
def isBattleEnd : BEvent → Bool
  | BEvent.battle_end => true
  | _ => false

/-- Store procedures called by the phase loop (battle.py lines 280-332),
each given as an Except value so a raised store error can be injected at any
call site: the first-question fetch, the per-question stats fetch, the
leaderboard fetch, the next-question fetch keyed by the current sequence
position, and the write that sets the battle row to Completed. -/
structure Store where
  get_first_mcq : Except Unit (List Mcq)
  get_battle_stats : String → Except Unit (List JVal)
  get_leader_board : Except Unit (List JVal)
  get_next_mcq : Nat → Except Unit (List Mcq)
  set_completed : Except Unit Unit

/-- Body of the while loop of run_battle_sequence (battle.py lines 288-335),
with explicit fuel bounding the number of iterations (none means the fuel ran
out before the loop ended). Each iteration broadcasts new_question for the
head of the current rows, fetches and broadcasts the flattened stats and
leaderboard payloads, then fetches the next question: when one exists it is
broadcast as a further new_question and becomes the current rows of the next
iteration; when none exists the battle row is set to Completed (counted in
the second component) and battle_end is broadcast. A store raise at any call
aborts the loop there, keeping the events already emitted. -/
def battle_loop (store : Store) : Nat → List Mcq → List BEvent →
    Option (List BEvent × Nat)
  | 0, _, _ => none
  | Nat.succ fuel, current, acc =>
    match current with
    | [] => some (acc, 0)
    | mcq :: _ =>
      let acc1 := acc ++ [BEvent.new_question mcq]
      match store.get_battle_stats mcq.mcq_id with
      | Except.error _ => some (acc1, 0)
      | Except.ok bar =>
        let acc2 := acc1 ++ [BEvent.show_stats (bar.headD (JVal.obj []))]
        match store.get_leader_board with
        | Except.error _ => some (acc2, 0)
        | Except.ok lead =>
          let acc3 := acc2 ++ [BEvent.update_leaderboard (lead.headD (JVal.obj []))]
          match store.get_next_mcq mcq.react_order with
          | Except.error _ => some (acc3, 0)
          | Except.ok next =>
            match next with
            | next_mcq :: _ =>
              battle_loop store fuel next (acc3 ++ [BEvent.new_question next_mcq])
            | [] =>
              match store.set_completed with
              | Except.error _ => some (acc3, 0)
              | Except.ok _ => some (acc3 ++ [BEvent.battle_end], 1)

/-- Result of one orchestrator run: the broadcast events in order, the number
of store writes setting the battle to Completed, and the registry after the
run. -/
structure RunResult where
  events : List BEvent
  completed_writes : Nat
  registry : Finset String

/-- Embedding of the orchestrator run_battle_sequence (battle.py lines
276-341). The first-question fetch seeds the loop; an empty result broadcasts
battle_end and returns without any write; a raise anywhere is caught by the
except branch; the finally branch always discards the battle id from the
registry. none means the fuel did not cover the loop (a run that has not
ended). -/
def run_battle_sequence (store : Store) (fuel : Nat)
    (active_battles : Finset String) (battle_id : String) : Option RunResult :=
  let body : Option (List BEvent × Nat) :=
    match store.get_first_mcq with
    | Except.error _ => some ([], 0)
    | Except.ok data =>
      match data with
      | [] => some ([BEvent.battle_end], 0)
      | _ :: _ => battle_loop store fuel data []
  match body with
  | none => none
  | some (evs, w) => some ⟨evs, w, active_battles.erase battle_id⟩

/-- Question row at 0-based index i of the K-question battle: its sequence
position react_order is i + 1. -/
def mcqK (K i : Nat) : Mcq := ⟨"q" ++ toString i, i + 1, K⟩

/-- Store of a battle with K questions whose sequence positions are 1..K: the
first fetch returns the question at position 1 when K is positive, the
next-question fetch after position r returns the question at position r+1
when r is below K and the empty row list otherwise; stats and leaderboard
fetches return empty row lists and every call succeeds. -/
def storeK (K : Nat) : Store where
  get_first_mcq := Except.ok (if 0 < K then [mcqK K 0] else [])
  get_battle_stats := fun _ => Except.ok []
  get_leader_board := Except.ok []
  get_next_mcq := fun r => Except.ok (if r < K then [mcqK K r] else [])
  set_completed := Except.ok ()

/-- Helper for the K-question store: starting the loop at the question of
0-based index i with any accumulated events, the loop ends with one Completed
write and appends, for the K - i remaining questions, 2 * (K - i) - 1
new_question events (every question after the one the loop starts at is
broadcast twice), K - i show_stats events, K - i update_leaderboard events
and one battle_end event. -/
lemma battle_loop_storeK_counts (K : Nat) :
    ∀ fuel i acc, i < K → K - i ≤ fuel →
      ∃ evs, battle_loop (storeK K) fuel [mcqK K i] acc = some (acc ++ evs, 1) ∧
        evs.countP isNewQuestion = 2 * (K - i) - 1 ∧
        evs.countP isShowStats = K - i ∧
        evs.countP isUpdateLeaderboard = K - i ∧
        evs.countP isBattleEnd = 1 := by
  intro fuel
  induction fuel with
  | zero =>
    intro i acc hi hf
    omega
  | succ fuel ih =>
    intro i acc hi hf
    by_cases hnext : i + 1 < K
    · obtain ⟨evs, hrun, hnq, hss, hul, hbe⟩ :=
        ih (i + 1)
          (acc ++ [BEvent.new_question (mcqK K i),
                   BEvent.show_stats (JVal.obj []),
                   BEvent.update_leaderboard (JVal.obj []),
                   BEvent.new_question (mcqK K (i + 1))]) hnext (by omega)
      refine ⟨[BEvent.new_question (mcqK K i),
               BEvent.show_stats (JVal.obj []),
               BEvent.update_leaderboard (JVal.obj []),
               BEvent.new_question (mcqK K (i + 1))] ++ evs, ?_, ?_, ?_, ?_, ?_⟩
      · have hstep : battle_loop (storeK K) (fuel + 1) [mcqK K i] acc =
            battle_loop (storeK K) fuel [mcqK K (i + 1)]
              (acc ++ [BEvent.new_question (mcqK K i),
                       BEvent.show_stats (JVal.obj []),
                       BEvent.update_leaderboard (JVal.obj []),
                       BEvent.new_question (mcqK K (i + 1))]) := by
          simp [battle_loop, storeK, mcqK, hnext]
        rw [hstep, hrun]
        simp
      · simp [List.countP_append, List.countP_cons, isNewQuestion, isShowStats,
          isUpdateLeaderboard, isBattleEnd, hnq]
        omega
      · simp [List.countP_append, List.countP_cons, isNewQuestion, isShowStats,
          isUpdateLeaderboard, isBattleEnd, hss]
        omega
      · simp [List.countP_append, List.countP_cons, isNewQuestion, isShowStats,
          isUpdateLeaderboard, isBattleEnd, hul]
        omega
      · simp [List.countP_append, List.countP_cons, isNewQuestion, isShowStats,
          isUpdateLeaderboard, isBattleEnd, hbe]
    · have hKi : K = i + 1 := by omega
      refine ⟨[BEvent.new_question (mcqK K i),
               BEvent.show_stats (JVal.obj []),
               BEvent.update_leaderboard (JVal.obj []),
               BEvent.battle_end], ?_, ?_, ?_, ?_, ?_⟩
      · simp [battle_loop, storeK, mcqK, hnext]
      · simp [List.countP_cons, isNewQuestion, isShowStats, isUpdateLeaderboard,
          isBattleEnd]
        omega
      · simp [List.countP_cons, isNewQuestion, isShowStats, isUpdateLeaderboard,
          isBattleEnd]
        omega
      · simp [List.countP_cons, isNewQuestion, isShowStats, isUpdateLeaderboard,
          isBattleEnd]
        omega
      · simp [List.countP_cons, isNewQuestion, isShowStats, isUpdateLeaderboard,
          isBattleEnd]

/-- C1 counterexample: for the battle with K = 2 questions, a full
orchestrator run publishes new_question three times, not K = 2 times: the
second question is broadcast once when it is fetched and once more when the
loop re-enters at its head. -/
theorem run_two_questions_new_question_cex :
    (run_battle_sequence (storeK 2) 3 ∅ "B1").map
        (fun r => r.events.countP isNewQuestion) = some 3 ∧ (3 : Nat) ≠ 2 := by
  refine ⟨rfl, by decide⟩

/-- C1 amended: for every battle with K at least 1 questions, a full
orchestrator run over the K-question store ends, publishes new_question
exactly 2 * K - 1 times (each question after the first is broadcast twice),
show_stats exactly K times, update_leaderboard exactly K times, battle_end
exactly once, and performs the store write setting the battle to Completed
exactly once. -/
theorem run_event_counts (K fuel : Nat) (reg : Finset String)
    (battle_id : String) (hK : 1 ≤ K) (hfuel : K ≤ fuel) :
    ∃ r, run_battle_sequence (storeK K) fuel reg battle_id = some r ∧
      r.events.countP isNewQuestion = 2 * K - 1 ∧
      r.events.countP isShowStats = K ∧
      r.events.countP isUpdateLeaderboard = K ∧
      r.events.countP isBattleEnd = 1 ∧
      r.completed_writes = 1 := by
  obtain ⟨evs, hrun, hnq, hss, hul, hbe⟩ :=
    battle_loop_storeK_counts K fuel 0 [] (by omega) (by omega)
  have hKpos : 0 < K := hK
  have hfirst : (storeK K).get_first_mcq = Except.ok [mcqK K 0] := by
    simp [storeK, hKpos]
  have hbody : battle_loop (storeK K) fuel [mcqK K 0] [] = some (evs, 1) := by
    simpa using hrun
  refine ⟨⟨evs, 1, reg.erase battle_id⟩, ?_, ?_, ?_, ?_, ?_, rfl⟩
  · simp [run_battle_sequence, hfirst, hbody]
  · simpa using hnq
  · simpa using hss
  · simpa using hul
  · simpa using hbe

/-- C1 amended witness: the counting theorem evaluated at the one-question
battle. -/
theorem run_event_counts_witness :
    ∃ r, run_battle_sequence (storeK 1) 1 ∅ "B1" = some r ∧
      r.events.countP isNewQuestion = 2 * 1 - 1 ∧
      r.events.countP isShowStats = 1 ∧
      r.events.countP isUpdateLeaderboard = 1 ∧
      r.events.countP isBattleEnd = 1 ∧
      r.completed_writes = 1 :=
  run_event_counts 1 1 ∅ "B1" (by decide) (by decide)

/-- C9: whenever an orchestrator run ends, along any path (normal completion,
no questions found, or an injected store raise at any call site), the battle
id is absent from the registry the run leaves behind. -/
theorem run_always_deregisters (store : Store) (fuel : Nat)
    (reg : Finset String) (battle_id : String) (r : RunResult)
    (h : run_battle_sequence store fuel reg battle_id = some r) :
    battle_id ∉ r.registry := by
  have hshape : run_battle_sequence store fuel reg battle_id = none ∨
      ∃ evs w, run_battle_sequence store fuel reg battle_id =
        some ⟨evs, w, reg.erase battle_id⟩ := by
    unfold run_battle_sequence
    cases h1 : store.get_first_mcq with
    | error e => exact Or.inr ⟨[], 0, rfl⟩
    | ok data =>
      cases data with
      | nil => exact Or.inr ⟨[BEvent.battle_end], 0, rfl⟩
      | cons a as =>
        dsimp only
        cases h2 : battle_loop store fuel (a :: as) [] with
        | none => exact Or.inl rfl
        | some p => exact Or.inr ⟨p.1, p.2, by obtain ⟨e1, w1⟩ := p; rfl⟩
  rcases hshape with hn | ⟨evs, w, hs⟩
  · rw [hn] at h
    cases h
  · rw [hs] at h
    rw [← Option.some.inj h]
    exact Finset.not_mem_erase battle_id reg

/-- C9 witness: the deregistration theorem evaluated at a completed
one-question run started with the battle id registered. -/
theorem run_always_deregisters_witness :
    ∃ r, run_battle_sequence (storeK 1) 1 {"B1"} "B1" = some r ∧
      "B1" ∉ r.registry :=
  ⟨⟨[BEvent.new_question (mcqK 1 0), BEvent.show_stats (JVal.obj []),
     BEvent.update_leaderboard (JVal.obj []), BEvent.battle_end], 1,
    ({"B1"} : Finset String).erase "B1"⟩, rfl,
   run_always_deregisters (storeK 1) 1 {"B1"} "B1" _ rfl⟩

/-- C10: when the first-question fetch succeeds with no rows, the run
broadcasts battle_end exactly once as its only event and ends with zero
Completed writes (the persisted status is untouched), for every fuel,
registry and battle id; the finally branch still deregisters the id. -/
theorem no_questions_run (store : Store) (fuel : Nat) (reg : Finset String)
    (battle_id : String) (h : store.get_first_mcq = Except.ok []) :
    run_battle_sequence store fuel reg battle_id =
      some ⟨[BEvent.battle_end], 0, reg.erase battle_id⟩ := by
  simp [run_battle_sequence, h]

/-- C10 witness: the zero-question theorem evaluated at the empty store. -/
theorem no_questions_run_witness :
    run_battle_sequence (storeK 0) 5 {"B1"} "B1" =
      some ⟨[BEvent.battle_end], 0, ({"B1"} : Finset String).erase "B1"⟩ :=
  no_questions_run (storeK 0) 5 {"B1"} "B1" (by simp [storeK])

/-- Program counter of one in-flight /battle/start request under asyncio's
cooperative scheduling: an async handler never interleaves with another
coroutine between await points, and the only await in start_battle is the
5-second sleep of the fresh-start path (battle.py line 260). seg1 is the
atomic segment from the participants and status fetches through the decision
cases, including (on the fresh path) the Active write and the registry add;
afterSleep is the atomic segment after the sleep that broadcasts
battle_start and spawns the orchestrator task; done means the handler
returned. -/
inductive PC where
  | seg1
  | afterSleep
  | done
deriving DecidableEq

/-- Shared process state seen by N concurrent start calls for one battle id:
the persisted status row, whether the id is in the registry set, the number
of store writes setting the status to Active, the number of orchestrator
tasks spawned, and the program counter of every call. -/
structure CoState where
  db : Option String
  reg : Bool
  status_writes : Nat
  spawns : Nat
  procs : List PC

/-- One cooperative scheduling step: the scheduled call runs its next atomic
segment of start_battle against the shared state (an index pointing at no
runnable call changes nothing). The branch conditions are exactly the ones
of start_battle evaluated on the shared status and registry membership:
resume returns; zombie repair registers and spawns before returning; the
completed case returns; the fresh-start path writes Active, registers, and
suspends at the sleep, spawning only in its second segment. -/
def coop_step (s : CoState) (i : Nat) : CoState :=
  match s.procs[i]? with
  | some PC.seg1 =>
    if status_truthy_is s.db "active" && s.reg then
      { s with procs := s.procs.set i PC.done }
    else if status_truthy_is s.db "active" && !s.reg then
      { s with reg := true, spawns := s.spawns + 1, procs := s.procs.set i PC.done }
    else if status_truthy_is s.db "completed" then
      { s with procs := s.procs.set i PC.done }
    else
      { s with db := some "Active", status_writes := s.status_writes + 1,
               reg := true, procs := s.procs.set i PC.afterSleep }
  | some PC.afterSleep =>
    { s with spawns := s.spawns + 1, procs := s.procs.set i PC.done }
  | _ => s

/-- State reached after the scheduler has run the listed call indices in
order. -/
def coop_run (s : CoState) : List Nat → CoState
  | [] => s
  | i :: rest => coop_run (coop_step s i) rest

/-- Initial shared state of the idempotency scenario: persisted status
Pending, battle id not registered, N start calls arrived and not yet run. -/
def coop_init (N : Nat) : CoState :=
  ⟨some "Pending", false, 0, 0, List.replicate N PC.seg1⟩

/-- Invariant of the concurrent-start system: either no call has run yet
(status Pending, nothing registered, written or spawned, every call at its
first segment), or exactly one fresh start has claimed the battle (status
Active, id registered, one Active write) and the one spawn it owes is either
still suspended at the sleep or already performed. -/
def CoInv (N : Nat) (s : CoState) : Prop :=
  s.procs.length = N ∧
  ((s.db = some "Pending" ∧ s.reg = false ∧ s.status_writes = 0 ∧
      s.spawns = 0 ∧ ∀ p ∈ s.procs, p = PC.seg1) ∨
   (s.db = some "Active" ∧ s.reg = true ∧ s.status_writes = 1 ∧
      s.spawns + s.procs.countP (fun p => p == PC.afterSleep) = 1))

/-- Helper: an element read by an index lookup is a member of the list. -/
lemma mem_of_lookup (l : List PC) (i : Nat) (a : PC) (h : l[i]? = some a) :
    a ∈ l := by
  induction l generalizing i with
  | nil => simp at h
  | cons b bs ih =>
    cases i with
    | zero =>
      simp at h
      simp [h]
    | succ j =>
      simp at h
      exact List.mem_cons_of_mem b (ih j h)

/-- Helper: how an in-place update changes a Boolean count over a list. -/
lemma countP_set_eq (l : List PC) (q : PC → Bool) :
    ∀ (i : Nat) (x y : PC), l[i]? = some y →
      (l.set i x).countP q + (if q y then 1 else 0) =
        l.countP q + (if q x then 1 else 0) := by
  induction l with
  | nil =>
    intro i x y h
    simp at h
  | cons b bs ih =>
    intro i x y h
    cases i with
    | zero =>
      simp at h
      subst h
      simp [List.countP_cons]
      omega
    | succ j =>
      simp at h
      have hj := ih j x y h
      simp [List.countP_cons]
      omega

/-- Preservation: each cooperative step keeps the concurrent-start invariant. -/
lemma coop_step_inv (N : Nat) (s : CoState) (i : Nat) (h : CoInv N s) :
    CoInv N (coop_step s i) := by
  obtain ⟨hlen, hcase⟩ := h
  cases hp : s.procs[i]? with
  | none =>
    simpa [coop_step, hp] using And.intro hlen hcase
  | some pc =>
    cases pc with
    | seg1 =>
      rcases hcase with ⟨hdb, hreg, hw, hsp, hall⟩ | ⟨hdb, hreg, hw, hcnt⟩
      · have hA : status_truthy_is s.db "active" = false := by
          rw [hdb]; decide
        have hC : status_truthy_is s.db "completed" = false := by
          rw [hdb]; decide
        have hcount0 : s.procs.countP (fun p => p == PC.afterSleep) = 0 := by
          refine List.countP_eq_zero.mpr ?_
          intro p hpmem
          rw [hall p hpmem]
          decide
        have hset := countP_set_eq s.procs (fun p => p == PC.afterSleep) i
          PC.afterSleep PC.seg1 hp
        refine ⟨by simp [coop_step, hp, hA, hC, hlen],
          Or.inr ⟨?_, ?_, ?_, ?_⟩⟩
        · simp [coop_step, hp, hA, hC]
        · simp [coop_step, hp, hA, hC]
        · simp [coop_step, hp, hA, hC, hw]
        · simp only [coop_step, hp, hA, hC, Bool.false_and, if_neg,
            Bool.false_eq_true, not_false_iff]
          simp only [hsp]
          simp at hset
          omega
      · have hA : status_truthy_is s.db "active" = true := by
          rw [hdb]; decide
        have hstep : coop_step s i = { s with procs := s.procs.set i PC.done } := by
          simp [coop_step, hp, hA, hreg]
        have hset := countP_set_eq s.procs (fun p => p == PC.afterSleep) i
          PC.done PC.seg1 hp
        refine ⟨by rw [hstep]; simpa using hlen, Or.inr ⟨?_, ?_, ?_, ?_⟩⟩
        · rw [hstep]; exact hdb
        · rw [hstep]; exact hreg
        · rw [hstep]; exact hw
        · rw [hstep]
          show s.spawns + (s.procs.set i PC.done).countP
            (fun p => p == PC.afterSleep) = 1
          simp at hset
          omega
    | afterSleep =>
      rcases hcase with ⟨hdb, hreg, hw, hsp, hall⟩ | ⟨hdb, hreg, hw, hcnt⟩
      · have : PC.afterSleep = PC.seg1 := hall _ (mem_of_lookup _ i _ hp)
        cases this
      · have hstep : coop_step s i =
            { s with spawns := s.spawns + 1, procs := s.procs.set i PC.done } := by
          simp [coop_step, hp]
        have hset := countP_set_eq s.procs (fun p => p == PC.afterSleep) i
          PC.done PC.afterSleep hp
        refine ⟨by rw [hstep]; simpa using hlen, Or.inr ⟨?_, ?_, ?_, ?_⟩⟩
        · rw [hstep]; exact hdb
        · rw [hstep]; exact hreg
        · rw [hstep]; exact hw
        · rw [hstep]
          show s.spawns + 1 + (s.procs.set i PC.done).countP
            (fun p => p == PC.afterSleep) = 1
          simp at hset
          omega
    | done =>
      simpa [coop_step, hp] using And.intro hlen hcase

/-- Preservation along any schedule. -/
lemma coop_run_inv (N : Nat) (s : CoState) (sched : List Nat)
    (h : CoInv N s) : CoInv N (coop_run s sched) := by
  induction sched generalizing s with
  | nil => exact h
  | cons i rest ih => exact ih (coop_step s i) (coop_step_inv N s i h)

/-- C2: starting from persisted status Pending with the battle id
unregistered, any interleaved execution of N concurrent start calls that
runs every call to completion performs the Pending-to-Active status write
exactly once, leaves the persisted status Active, and spawns exactly one
orchestrator task: under asyncio's cooperative scheduling the membership
check and the registration of the fresh-start path sit in one atomic
segment (no await separates them), so the first call to run claims the
battle and every other call observes Active-and-registered and resumes. -/
theorem concurrent_start_single_spawn (N : Nat) (sched : List Nat)
    (hN : 1 ≤ N)
    (hdone : ∀ p ∈ (coop_run (coop_init N) sched).procs, p = PC.done) :
    (coop_run (coop_init N) sched).status_writes = 1 ∧
    (coop_run (coop_init N) sched).spawns = 1 ∧
    (coop_run (coop_init N) sched).db = some "Active" := by
  have hinit : CoInv N (coop_init N) := by
    refine ⟨by simp [coop_init], Or.inl ⟨rfl, rfl, rfl, rfl, ?_⟩⟩
    intro p hpmem
    exact List.eq_of_mem_replicate hpmem
  obtain ⟨hlen, hcase⟩ := coop_run_inv N (coop_init N) sched hinit
  rcases hcase with ⟨hdb, hreg, hw, hsp, hall⟩ | ⟨hdb, hreg, hw, hcnt⟩
  · exfalso
    have hne : (coop_run (coop_init N) sched).procs ≠ [] := by
      intro he
      rw [he] at hlen
      simp at hlen
      omega
    obtain ⟨p, hpmem⟩ := List.exists_mem_of_ne_nil _ hne
    have h1 := hall p hpmem
    have h2 := hdone p hpmem
    rw [h2] at h1
    cases h1
  · have hzero :
        (coop_run (coop_init N) sched).procs.countP
          (fun p => p == PC.afterSleep) = 0 := by
      refine List.countP_eq_zero.mpr ?_
      intro p hpmem
      rw [hdone p hpmem]
      decide
    exact ⟨hw, by omega, hdb⟩

/-- C2 witness: two concurrent calls scheduled as first call, second call,
first call again run to completion with one write and one spawn. -/
theorem concurrent_start_single_spawn_witness :
    (∀ p ∈ (coop_run (coop_init 2) [0, 1, 0]).procs, p = PC.done) ∧
    (coop_run (coop_init 2) [0, 1, 0]).status_writes = 1 ∧
    (coop_run (coop_init 2) [0, 1, 0]).spawns = 1 ∧
    (coop_run (coop_init 2) [0, 1, 0]).db = some "Active" :=
  ⟨by decide, concurrent_start_single_spawn 2 [0, 1, 0] (by decide) (by decide)⟩
